import Mathlib

/-!
A shallow embedding of the snake game state machine from `src/lib.rs`
(crate `snake`), together with proofs about its behaviour.

Modelling conventions:
* Rust `isize` coordinates become `Int` (no arithmetic in the game ever
  approaches the `isize` range, and all claims are about small boards).
* Rust `u8` board dimensions become `Nat`.
* The random food placement (`thread_rng().gen_range(0..free_cords.len())`)
  is modelled by an explicit `pick : Nat` parameter reduced modulo the
  number of free cells: every outcome the RNG can produce corresponds to
  some `pick`, and every `pick` produces an outcome the RNG can produce.
* `Game::tick` and `Game::place_food` mutate `self`; here they return the
  updated `Game` record.  The `Vec<TermUpdate>` render deltas are ignored:
  no claim mentions them.
* `Game::create` panics when a dimension is below 2; the model returns
  `Option Game` with `none` for the panic (no partial game escapes).
-/

namespace Snake

/-- The four cardinal directions (`enum Input` in the source). -/
inductive Input where
  | UP
  | DOWN
  | LEFT
  | RIGHT
deriving DecidableEq, Repr

/-- A 2D integer coordinate (`struct Coord { x: isize, y: isize }`). -/
structure Coord where
  x : Int
  y : Int
deriving DecidableEq, Repr

/-- Rust `Input::from_key`: lowercase wasd keys map to directions, everything
else maps to `None`. -/
def Input.from_key (s : String) : Option Input :=
  match s with
  | "w" => some Input.UP
  | "a" => some Input.LEFT
  | "s" => some Input.DOWN
  | "d" => some Input.RIGHT
  | _ => none

/-- Rust `Input::rev`: the opposite direction. -/
def Input.rev : Input → Input
  | Input.DOWN => Input.UP
  | Input.UP => Input.DOWN
  | Input.LEFT => Input.RIGHT
  | Input.RIGHT => Input.LEFT

/-- Rust `Input::offset`: the unit offset of a direction. -/
def Input.offset : Input → Coord
  | Input.DOWN => ⟨0, 1⟩
  | Input.UP => ⟨0, -1⟩
  | Input.LEFT => ⟨-1, 0⟩
  | Input.RIGHT => ⟨1, 0⟩

/-- Componentwise addition (`impl Add for Coord`). -/
def Coord.add (a b : Coord) : Coord := ⟨a.x + b.x, a.y + b.y⟩

/-- Rust `Coord::move_by`: move one step in a direction. -/
def Coord.move_by (c : Coord) (input : Input) : Coord := c.add input.offset

/-- Rust `enum GameState`. -/
inductive GameState where
  | RUNNING
  | DEAD
  | WON
deriving DecidableEq, Repr

/-- Rust `struct Game`. -/
structure Game where
  snake : List Coord
  food : Option Coord
  width : Nat
  height : Nat
  state : GameState
  cur_input : Input
deriving DecidableEq, Repr

/-- Rust `Game::coord_is_in_bounds`. -/
def Game.coord_is_in_bounds (g : Game) (c : Coord) : Bool :=
  decide (0 ≤ c.x ∧ c.x < (g.width : Int) ∧ 0 ≤ c.y ∧ c.y < (g.height : Int))

/-- Rust `Game::get_head`: `self.snake[0]`.  The Rust code indexes the vector
directly and would panic on an empty snake; the snake is nonempty in every
reachable state, and theorems below carry the needed hypotheses. -/
def Game.get_head (g : Game) : Coord := g.snake.headD ⟨0, 0⟩

/-- Rust `Game::get_new_head`: head moved in the pending direction, with the
reversal guard: when that cell is the second segment, continue with the
reversed pending direction instead. -/
def Game.get_new_head (g : Game) : Coord :=
  let new_head := g.get_head.move_by g.cur_input
  if 2 ≤ g.snake.length ∧ g.snake[1]? = some new_head then
    g.get_head.move_by g.cur_input.rev
  else
    new_head

/-- The cells of the board, enumerated exactly as the nested loops in
`Game::place_food` do (y outer, x inner). -/
def Game.board_coords (g : Game) : List Coord :=
  (List.range g.height).flatMap fun (y : Nat) =>
    (List.range g.width).map fun (x : Nat) => ⟨(x : Int), (y : Int)⟩

/-- The board cells not occupied by the snake (the `free_coords` set in
`Game::place_food`, as a list). -/
def Game.free_coords (g : Game) : List Coord :=
  g.board_coords.filter fun c => decide (c ∉ g.snake)

/-- Rust `Game::place_food`: put the food on a free cell chosen by `pick`
(modelling the uniform random index), or clear it when no cell is free. -/
def Game.place_food (g : Game) (pick : Nat) : Game :=
  if h : g.free_coords.length = 0 then
    { g with food := none }
  else
    { g with
      food := some (g.free_coords.get
        ⟨pick % g.free_coords.length, Nat.mod_lt _ (Nat.pos_of_ne_zero h)⟩) }

/-- Rust `Game::tick`, minus the returned render deltas: collision check against
all segments but the tail, insert the new head, bounds check, food check
with replacement (board full means `WON`), and tail removal when no food
was eaten. -/
def Game.tick (g : Game) (pick : Nat) : Game :=
  let new_head := g.get_new_head
  if new_head ∈ g.snake.take (g.snake.length - 1) then
    { g with state := GameState.DEAD }
  else
    let grown : Game := { g with snake := new_head :: g.snake }
    if grown.coord_is_in_bounds new_head then
      match g.food with
      | some food =>
        if new_head = food then
          let fed := grown.place_food pick
          match fed.food with
          | some _ => fed
          | none => { fed with state := GameState.WON }
        else
          { grown with snake := grown.snake.dropLast }
      | none => { grown with snake := grown.snake.dropLast }
    else
      { grown with state := GameState.DEAD }

/-- The literal `Game` record built inside `Game::create` before food is
placed: one snake segment at the origin, no food yet, state `RUNNING`,
pending direction `DOWN`. -/
def Game.initial (height width : Nat) : Game :=
  { snake := [⟨0, 0⟩], food := none, width := width, height := height,
    state := GameState.RUNNING, cur_input := Input.DOWN }

/-- Rust `Game::create`: `none` models the panic on a dimension below 2. -/
def Game.create (height width : Nat) (pick : Nat) : Option Game :=
  if height < 2 ∨ width < 2 then
    none
  else
    some ((Game.initial height width).place_food pick)

/-- The input loop's only mutation: `game.cur_input = i`. -/
def Game.set_cur_input (g : Game) (i : Input) : Game := { g with cur_input := i }

/-- States reachable from `Game::create` by ticks and pending-direction
updates, over every possible random placement outcome. -/
inductive Reachable : Game → Prop where
  | create (height width pick : Nat) (g : Game) :
      Game.create height width pick = some g → Reachable g
  | tick (g : Game) (pick : Nat) : Reachable g → Reachable (g.tick pick)
  | set_cur_input (g : Game) (i : Input) : Reachable g → Reachable (g.set_cur_input i)

/-- The food/snake invariant: present food is off the snake and on the
board; absent food means the snake covers the whole board. -/
def Game.food_ok (g : Game) : Prop :=
  (∀ f, g.food = some f → f ∉ g.snake ∧ g.coord_is_in_bounds f = true) ∧
  (g.food = none → ∀ c, g.coord_is_in_bounds c = true → c ∈ g.snake)

/-- The full state invariant maintained by every operation. -/
def Game.inv (g : Game) : Prop := g.snake ≠ [] ∧ g.food_ok

/-! ### Helper lemmas about the board and food placement -/

theorem mem_board_coords (g : Game) (c : Coord) :
    c ∈ g.board_coords ↔ g.coord_is_in_bounds c = true := by
  simp only [Game.coord_is_in_bounds, decide_eq_true_eq]
  constructor
  · intro hmem
    rcases List.mem_flatMap.mp hmem with ⟨y, hy, hin⟩
    rcases List.mem_map.mp hin with ⟨x, hx, hco⟩
    rw [List.mem_range] at hy hx
    subst hco
    dsimp only
    omega
  · intro hc
    refine List.mem_flatMap.mpr ⟨c.y.toNat, List.mem_range.mpr (by omega), ?_⟩
    refine List.mem_map.mpr ⟨c.x.toNat, List.mem_range.mpr (by omega), ?_⟩
    obtain ⟨cx, cy⟩ := c
    dsimp only at hc ⊢
    rw [Coord.mk.injEq]
    constructor <;> omega

theorem mem_free_coords (g : Game) (c : Coord) :
    c ∈ g.free_coords ↔ g.coord_is_in_bounds c = true ∧ c ∉ g.snake := by
  simp only [Game.free_coords, List.mem_filter, decide_eq_true_eq, mem_board_coords]

theorem place_food_fields (g : Game) (pick : Nat) :
    (g.place_food pick).snake = g.snake ∧ (g.place_food pick).width = g.width ∧
    (g.place_food pick).height = g.height ∧ (g.place_food pick).state = g.state ∧
    (g.place_food pick).cur_input = g.cur_input := by
  unfold Game.place_food
  split <;> exact ⟨rfl, rfl, rfl, rfl, rfl⟩

theorem place_food_in_bounds (g : Game) (pick : Nat) (c : Coord) :
    (g.place_food pick).coord_is_in_bounds c = g.coord_is_in_bounds c := by
  unfold Game.coord_is_in_bounds
  rw [(place_food_fields g pick).2.1, (place_food_fields g pick).2.2.1]

theorem place_food_food (g : Game) (pick : Nat) :
    (g.free_coords = [] ∧ (g.place_food pick).food = none) ∨
    (∃ f, (g.place_food pick).food = some f ∧ f ∈ g.free_coords) := by
  unfold Game.place_food
  split
  · rename_i h
    exact Or.inl ⟨List.length_eq_zero.mp h, rfl⟩
  · exact Or.inr ⟨_, rfl, List.get_mem _ _ _⟩

theorem place_food_food_ok (g : Game) (pick : Nat) : (g.place_food pick).food_ok := by
  unfold Game.food_ok
  rw [(place_food_fields g pick).1]
  rcases place_food_food g pick with ⟨hfree, hnone⟩ | ⟨f, hsome, hmem⟩
  · refine ⟨fun f hf => absurd (hnone ▸ hf) (by simp), fun _ c hc => ?_⟩
    rw [place_food_in_bounds] at hc
    by_contra hcs
    exact List.not_mem_nil c (hfree ▸ (mem_free_coords g c).mpr ⟨hc, hcs⟩)
  · rw [hsome]
    have hm := (mem_free_coords g f).mp hmem
    refine ⟨fun f2 hf2 => ?_, fun hn => by simp at hn⟩
    obtain rfl : f = f2 := by injection hf2
    exact ⟨hm.2, by rw [place_food_in_bounds]; exact hm.1⟩

/-! ### The reachability invariant -/

theorem food_ok_of_eq (g1 g2 : Game) (hs : g2.snake = g1.snake) (hf : g2.food = g1.food)
    (hw : g2.width = g1.width) (hh : g2.height = g1.height) (h : g1.food_ok) : g2.food_ok := by
  unfold Game.food_ok Game.coord_is_in_bounds
  rw [hs, hf, hw, hh]
  exact h

theorem eq_getLast_of_not_mem_take (l : List Coord) (a : Coord) (hne : l ≠ [])
    (ha : a ∈ l) (hnt : a ∉ l.take (l.length - 1)) : a = l.getLast hne := by
  have hd : l.dropLast ++ [l.getLast hne] = l := List.dropLast_append_getLast hne
  rw [← hd] at ha
  rcases List.mem_append.mp ha with h1 | h2
  · rw [List.dropLast_eq_take] at h1
    exact absurd h1 hnt
  · simpa using h2


theorem tick_inv (g : Game) (pick : Nat) (hi : g.inv) : (g.tick pick).inv := by
  obtain ⟨hne, hfood⟩ := hi
  simp only [Game.tick]
  split
  · exact ⟨hne, food_ok_of_eq g _ rfl rfl rfl rfl hfood⟩
  · rename_i hcol
    split
    · rename_i hbnd
      have hbnd2 : g.coord_is_in_bounds g.get_new_head = true := hbnd
      split
      · rename_i food hf
        split
        · rename_i heat
          split
          · rename_i c hc
            refine ⟨?_, place_food_food_ok _ pick⟩
            rw [(place_food_fields _ pick).1]
            exact List.cons_ne_nil _ _
          · rename_i hc
            constructor
            · show (Game.place_food _ pick).snake ≠ []
              rw [(place_food_fields _ pick).1]
              exact List.cons_ne_nil _ _
            · exact food_ok_of_eq (Game.place_food _ pick) _ rfl rfl rfl rfl
                (place_food_food_ok _ pick)
        · rename_i heat
          obtain ⟨s0, rest, hsn⟩ : ∃ s0 rest, g.snake = s0 :: rest := by
            cases hsnake : g.snake with
            | nil => exact absurd hsnake hne
            | cons s0 rest => exact ⟨s0, rest, rfl⟩
          refine ⟨?_, ?_, ?_⟩
          · show (g.get_new_head :: g.snake).dropLast ≠ []
            rw [hsn, List.dropLast_cons₂]
            exact List.cons_ne_nil _ _
          · intro f2 hf2
            have hf2g : g.food = some f2 := hf2
            have hm := hfood.1 f2 hf2g
            refine ⟨fun hmem => ?_, hm.2⟩
            have hmem2 : f2 ∈ g.get_new_head :: g.snake := List.dropLast_subset _ hmem
            rcases List.mem_cons.mp hmem2 with h1 | h2
            · obtain rfl : f2 = food := by rw [hf] at hf2g; injection hf2g with h; exact h.symm
              exact heat (h1 ▸ rfl)
            · exact hm.1 h2
          · intro hnone
            exact Option.noConfusion (hf.symm.trans hnone)
      · rename_i hf
        have hnh_mem : g.get_new_head ∈ g.snake := hfood.2 hf _ hbnd2
        have hnh_last : g.get_new_head = g.snake.getLast hne :=
          eq_getLast_of_not_mem_take _ _ hne hnh_mem hcol
        obtain ⟨s0, rest, hsn⟩ : ∃ s0 rest, g.snake = s0 :: rest := by
          cases hsnake : g.snake with
          | nil => exact absurd hsnake hne
          | cons s0 rest => exact ⟨s0, rest, rfl⟩
        refine ⟨?_, ?_, ?_⟩
        · show (g.get_new_head :: g.snake).dropLast ≠ []
          rw [hsn, List.dropLast_cons₂]
          exact List.cons_ne_nil _ _
        · intro f2 hf2
          exact Option.noConfusion (hf.symm.trans hf2)
        · intro _ c hc
          have hcg : g.coord_is_in_bounds c = true := hc
          have hcs : c ∈ g.snake := hfood.2 hf c hcg
          rw [← List.dropLast_append_getLast hne] at hcs
          show c ∈ (g.get_new_head :: g.snake).dropLast
          rcases List.mem_append.mp hcs with h1 | h2
          · rw [hsn, List.dropLast_cons₂]
            exact List.mem_cons_of_mem _ (hsn ▸ h1)
          · have hcl : c = g.get_new_head := (List.mem_singleton.mp h2).trans hnh_last.symm
            rw [hsn, List.dropLast_cons₂, hcl]
            exact List.mem_cons_self _ _
    · rename_i hbnd
      have hbnd2 : g.coord_is_in_bounds g.get_new_head = false := (Bool.not_eq_true _) ▸ hbnd
      refine ⟨?_, ?_, ?_⟩
      · exact List.cons_ne_nil _ _
      · intro f2 hf2
        have hm := hfood.1 f2 hf2
        refine ⟨fun hmem => ?_, hm.2⟩
        rcases List.mem_cons.mp hmem with h1 | h2
        · rw [h1] at hm
          exact Bool.noConfusion (hm.2.symm.trans hbnd2)
        · exact hm.1 h2
      · intro hnone c hc
        exact List.mem_cons_of_mem _ (hfood.2 hnone c hc)


theorem create_inv (height width pick : Nat) (g : Game)
    (hc : Game.create height width pick = some g) : g.inv := by
  unfold Game.create at hc
  split at hc
  · cases hc
  · injection hc with h
    subst h
    refine ⟨?_, place_food_food_ok _ pick⟩
    rw [(place_food_fields _ pick).1]
    exact List.cons_ne_nil _ _

theorem set_cur_input_inv (g : Game) (i : Input) (hi : g.inv) : (g.set_cur_input i).inv :=
  ⟨hi.1, food_ok_of_eq g _ rfl rfl rfl rfl hi.2⟩

theorem reachable_inv (g : Game) (h : Reachable g) : g.inv := by
  induction h with
  | create height width pick g hc => exact create_inv height width pick g hc
  | tick g pick _ ih => exact tick_inv g pick ih
  | set_cur_input g i _ ih => exact set_cur_input_inv g i ih

/-! ### Concrete games used as witnesses and counterexamples -/

/-- The length-3 snake of the reversal regression scenario: head `(2,2)`,
travelling away from `(2,1)`, pending direction pointing back at `(2,1)`. -/
def reversal_demo : Game :=
  { snake := [⟨2, 2⟩, ⟨2, 1⟩, ⟨2, 0⟩], food := some ⟨0, 0⟩, width := 5, height := 5,
    state := GameState.RUNNING, cur_input := Input.UP }

/-- A game whose next head lands on a non-tail segment (index 2 of 4). -/
def collision_demo : Game :=
  { snake := [⟨0, 0⟩, ⟨5, 5⟩, ⟨0, 1⟩, ⟨9, 9⟩], food := some ⟨3, 3⟩, width := 10, height := 10,
    state := GameState.RUNNING, cur_input := Input.DOWN }

/-- A snake curled in a 2x2 square about to move onto its own tail. -/
def tail_demo : Game :=
  { snake := [⟨0, 0⟩, ⟨1, 0⟩, ⟨1, 1⟩, ⟨0, 1⟩], food := none, width := 2, height := 2,
    state := GameState.RUNNING, cur_input := Input.DOWN }

/-- A game whose next head lands exactly on the food. -/
def eat_demo : Game :=
  { snake := [⟨0, 0⟩], food := some ⟨0, 1⟩, width := 3, height := 3,
    state := GameState.RUNNING, cur_input := Input.DOWN }

/-- A game whose next head leaves the board. -/
def oob_demo : Game :=
  { snake := [⟨0, 0⟩], food := some ⟨1, 1⟩, width := 2, height := 2,
    state := GameState.RUNNING, cur_input := Input.UP }

/-- A game already in the `DEAD` state. -/
def dead_demo : Game :=
  { snake := [⟨0, 0⟩], food := some ⟨1, 1⟩, width := 2, height := 2,
    state := GameState.DEAD, cur_input := Input.DOWN }

/-- The game produced by `Game.create 2 2 0`. -/
def created_demo : Game :=
  { snake := [⟨0, 0⟩], food := some ⟨1, 0⟩, width := 2, height := 2,
    state := GameState.RUNNING, cur_input := Input.DOWN }

/-! ### Direction arithmetic helpers -/

theorem move_by_rev_eq (c : Coord) (d : Input) :
    c.move_by d.rev = ⟨2 * c.x - (c.move_by d).x, 2 * c.y - (c.move_by d).y⟩ := by
  obtain ⟨x, y⟩ := c
  cases d <;> simp [Coord.move_by, Coord.add, Input.offset, Input.rev, Coord.mk.injEq]
    <;> omega

theorem move_by_rev_ne (c : Coord) (d : Input) : c.move_by d.rev ≠ c.move_by d := by
  obtain ⟨x, y⟩ := c
  cases d <;> simp [Coord.move_by, Coord.add, Input.offset, Input.rev, Coord.mk.injEq]

/-! ### Claim theorems -/

/-- Claim C1: when the snake has a second segment and moving the head in
the pending direction would land exactly on it (a reversal press), the
move is overridden: the new head is the head moved by the reversed pending
direction, which is one cell further in the current direction of travel
(`head + (head - second)`), and it never equals the second segment, so the
reversal press cannot cause that immediate self-collision; indeed the
press yields exactly the same new head as a press of the opposite
(travel-continuing) direction would. -/
theorem reversal_guard_spec (g : Game) (s1 : Coord)
    (h1 : g.snake[1]? = some s1)
    (hrev : g.get_head.move_by g.cur_input = s1) :
    g.get_new_head = g.get_head.move_by g.cur_input.rev ∧
    g.get_new_head = ⟨2 * g.get_head.x - s1.x, 2 * g.get_head.y - s1.y⟩ ∧
    g.get_new_head ≠ s1 ∧
    g.get_new_head = (g.set_cur_input g.cur_input.rev).get_new_head := by
  have hlen : 2 ≤ g.snake.length := by
    rcases List.getElem?_eq_some_iff.mp h1 with ⟨hlt, _⟩
    omega
  have hmain : g.get_new_head = g.get_head.move_by g.cur_input.rev := by
    simp only [Game.get_new_head]
    rw [if_pos ⟨hlen, by rw [hrev]; exact h1⟩]
  refine ⟨hmain, ?_, ?_, ?_⟩
  · rw [hmain, move_by_rev_eq, hrev]
  · rw [hmain, ← hrev]
    exact move_by_rev_ne _ _
  · have hrhs : (g.set_cur_input g.cur_input.rev).get_new_head =
        g.get_head.move_by g.cur_input.rev := by
      simp only [Game.get_new_head, Game.set_cur_input]
      rw [if_neg]
      · rfl
      · rintro ⟨-, hcontra⟩
        have hs1 : some s1 = some (g.get_head.move_by g.cur_input.rev) := by
          rw [← h1]
          exact hcontra
        have hs2 : s1 = g.get_head.move_by g.cur_input.rev := by
          injection hs1 with h
        rw [← hrev] at hs2
        exact move_by_rev_ne _ _ hs2.symm
    rw [hmain, hrhs]

/-- Claim C1, witnessed on the spec's regression scenario: next head is
`(2,3)`, not the second segment `(2,1)`. -/
theorem reversal_guard_spec_witness :
    reversal_demo.get_new_head = ⟨2, 3⟩ ∧ reversal_demo.get_new_head ≠ ⟨2, 1⟩ :=
  ⟨by decide, (reversal_guard_spec reversal_demo ⟨2, 1⟩ (by decide) (by decide)).2.2.1⟩

/-- Claim C7 (amended): `tick()` performs no terminal-state check, so on a
Dead or Won game it still runs the movement algorithm and may change the
snake list; what does hold is that a terminal state is never reverted:
no tick ever brings the state back to `RUNNING`. -/
theorem tick_terminal_never_running (g : Game) (pick : Nat)
    (h : g.state ≠ GameState.RUNNING) : (g.tick pick).state ≠ GameState.RUNNING := by
  simp only [Game.tick]
  split
  · exact fun hc => GameState.noConfusion hc
  · split
    · split
      · split
        · split
          · rw [(place_food_fields _ pick).2.2.2.1]
            exact h
          · exact fun hc => GameState.noConfusion hc
        · exact h
      · exact h
    · exact fun hc => GameState.noConfusion hc

/-- Claim C7, counterexample to the claim as stated: `dead_demo` is Dead,
yet `tick()` changes its snake list (the snake still moves). -/
theorem tick_terminal_mutates_counterexample :
    dead_demo.state = GameState.DEAD ∧ (dead_demo.tick 0).snake ≠ dead_demo.snake := by
  decide

/-- Claim C7 (amended), witness: ticking the Dead `dead_demo` never yields
a `RUNNING` state. -/
theorem tick_terminal_never_running_witness :
    (dead_demo.tick 0).state ≠ GameState.RUNNING :=
  tick_terminal_never_running dead_demo 0 (by decide)

/-- Claim C8 (amended): `Input::from_key` maps exactly the lowercase keys
`"w"`, `"a"`, `"s"`, `"d"` to `UP`, `LEFT`, `DOWN`, `RIGHT`, and yields
`none` for every other string (so the prior pending direction would be
retained); it is not case-insensitive. -/
theorem from_key_lowercase_spec :
    Input.from_key "w" = some Input.UP ∧ Input.from_key "a" = some Input.LEFT ∧
    Input.from_key "s" = some Input.DOWN ∧ Input.from_key "d" = some Input.RIGHT ∧
    ∀ s : String, s ≠ "w" → s ≠ "a" → s ≠ "s" → s ≠ "d" → Input.from_key s = none := by
  refine ⟨by decide, by decide, by decide, by decide, ?_⟩
  intro s h1 h2 h3 h4
  unfold Input.from_key
  split
  · exact absurd rfl h1
  · exact absurd rfl h2
  · exact absurd rfl h3
  · exact absurd rfl h4
  · rfl

/-- Claim C8, counterexample to the claim as stated: the uppercase key
`"W"` is not recognized by `Input::from_key`. -/
theorem from_key_uppercase_counterexample :
    Input.from_key "W" = none ∧ Input.from_key "W" ≠ some Input.UP := by
  constructor <;> decide

/-- Claim C8 (amended), witness at the concrete unrecognized key `"x"`. -/
theorem from_key_lowercase_spec_witness : Input.from_key "x" = none :=
  from_key_lowercase_spec.2.2.2.2 "x" (by decide) (by decide) (by decide) (by decide)

/-- Claim C10: direction inversion is an involution, unit offsets negate
under it, the offset convention is Down=(0,1), Up=(0,-1), Left=(-1,0),
Right=(1,0), and moving by a direction then by its inverse is a round
trip on every coordinate. -/
theorem direction_algebra_spec :
    (∀ d : Input, d.rev.rev = d) ∧
    (∀ d : Input, d.rev.offset = ⟨-d.offset.x, -d.offset.y⟩) ∧
    (Input.offset Input.DOWN = ⟨0, 1⟩ ∧ Input.offset Input.UP = ⟨0, -1⟩ ∧
      Input.offset Input.LEFT = ⟨-1, 0⟩ ∧ Input.offset Input.RIGHT = ⟨1, 0⟩) ∧
    (∀ (c : Coord) (d : Input), (c.move_by d).move_by d.rev = c) := by
  refine ⟨fun d => by cases d <;> rfl, fun d => by cases d <;> rfl, by decide, ?_⟩
  intro c d
  obtain ⟨x, y⟩ := c
  cases d <;> simp [Coord.move_by, Coord.add, Input.offset, Input.rev, Coord.mk.injEq]


/-- Claim C2: when the (guard-adjusted) new head equals a snake segment
other than the current tail (a member of all segments but the last), the
tick only sets the state to `DEAD`: snake, food, width and height are
untouched.  Moving onto the current tail alone is not a collision: with
the head in bounds, such a tick never yields `DEAD`. -/
theorem tick_self_collision_spec (g : Game) (pick : Nat) :
    (g.get_new_head ∈ g.snake.take (g.snake.length - 1) →
      g.tick pick = { g with state := GameState.DEAD }) ∧
    (g.state = GameState.RUNNING →
      g.get_new_head ∉ g.snake.take (g.snake.length - 1) →
      g.coord_is_in_bounds g.get_new_head = true →
      (g.tick pick).state ≠ GameState.DEAD) := by
  constructor
  · intro hcol
    simp only [Game.tick]
    rw [if_pos hcol]
  · intro hrun hcol hbnd
    simp only [Game.tick]
    rw [if_neg hcol]
    split
    case isFalse hfalse => exact absurd hbnd hfalse
    split
    · rename_i food hf
      split
      · split
        · rename_i c hc
          show (Game.place_food _ pick).state ≠ GameState.DEAD
          rw [(place_food_fields _ pick).2.2.2.1]
          show g.state ≠ GameState.DEAD
          rw [hrun]
          exact fun h => GameState.noConfusion h
        · exact fun h => GameState.noConfusion h
      · show g.state ≠ GameState.DEAD
        rw [hrun]
        exact fun h => GameState.noConfusion h
    · show g.state ≠ GameState.DEAD
      rw [hrun]
      exact fun h => GameState.noConfusion h

/-- Claim C5: when the (guard-adjusted) new head is out of bounds (and no
self-collision fired first), the tick inserts the out-of-bounds head,
keeps the tail, and sets the state to `DEAD`; the snake is one segment
longer than before. -/
theorem tick_out_of_bounds_spec (g : Game) (pick : Nat)
    (_hrun : g.state = GameState.RUNNING)
    (hcol : g.get_new_head ∉ g.snake.take (g.snake.length - 1))
    (hob : g.coord_is_in_bounds g.get_new_head = false) :
    g.tick pick = { g with snake := g.get_new_head :: g.snake, state := GameState.DEAD } ∧
    (g.tick pick).snake.length = g.snake.length + 1 := by
  have hmain : g.tick pick =
      { g with snake := g.get_new_head :: g.snake, state := GameState.DEAD } := by
    simp only [Game.tick]
    rw [if_neg hcol]
    split
    case isTrue htrue => exact absurd htrue (fun hc => Bool.noConfusion (hob.symm.trans hc))
    rfl
  exact ⟨hmain, by rw [hmain]; simp⟩

/-- Claim C4: a tick from a Running state whose new head equals the food
(no collision, in bounds) grows the snake by exactly one segment (the
tail stays); then either the food is relocated to a cell off the snake
with the state still `RUNNING`, or no free cell remains, the food is
cleared, the state becomes `WON` (not `DEAD`) and the snake covers the
whole board.  Moreover no tick ever decreases the snake length. -/
theorem tick_eat_grows_spec (g : Game) (pick : Nat) :
    (∀ f, g.state = GameState.RUNNING → g.food = some f → g.get_new_head = f →
      g.get_new_head ∉ g.snake.take (g.snake.length - 1) →
      g.coord_is_in_bounds g.get_new_head = true →
      (g.tick pick).snake = g.get_new_head :: g.snake ∧
      ((∃ f2, (g.tick pick).food = some f2 ∧ f2 ∉ (g.tick pick).snake ∧
          (g.tick pick).state = GameState.RUNNING) ∨
        ((g.tick pick).food = none ∧ (g.tick pick).state = GameState.WON ∧
          ∀ c, g.coord_is_in_bounds c = true → c ∈ (g.tick pick).snake))) ∧
    (∀ (g2 : Game) (pick2 : Nat), g2.snake.length ≤ (g2.tick pick2).snake.length) := by
  constructor
  · intro f hrun hf heat hcol hbnd
    simp only [Game.tick]
    rw [if_neg hcol]
    split
    case isFalse hfalse => exact absurd hbnd hfalse
    split
    · rename_i food2 hf2
      obtain rfl : food2 = f := by
        have h2 := hf2.symm.trans hf
        injection h2 with h
      rw [if_pos heat]
      split
      · rename_i c2 hc2
        rcases place_food_food { g with snake := g.get_new_head :: g.snake } pick with
          ⟨hfree, hnone⟩ | ⟨f2, hsome, hmem⟩
        · exact absurd (hnone.symm.trans hc2) (fun h => Option.noConfusion h)
        · refine ⟨(place_food_fields _ pick).1, Or.inl ⟨f2, hsome, ?_, ?_⟩⟩
          · rw [(place_food_fields _ pick).1]
            exact ((mem_free_coords _ f2).mp hmem).2
          · rw [(place_food_fields _ pick).2.2.2.1]
            exact hrun
      · rename_i hc2
        refine ⟨?_, Or.inr ⟨?_, rfl, ?_⟩⟩
        · show (Game.place_food _ pick).snake = _
          exact (place_food_fields _ pick).1
        · exact hc2
        · intro c hc
          show c ∈ (Game.place_food _ pick).snake
          rw [(place_food_fields _ pick).1]
          rcases place_food_food { g with snake := g.get_new_head :: g.snake } pick with
            ⟨hfree, _⟩ | ⟨f2, hsome, _⟩
          · by_contra hcs
            have hmm : c ∈ Game.free_coords { g with snake := g.get_new_head :: g.snake } :=
              (mem_free_coords _ c).mpr ⟨hc, hcs⟩
            rw [hfree] at hmm
            exact List.not_mem_nil c hmm
          · exact absurd (hsome.symm.trans hc2) (fun h => Option.noConfusion h)
    · rename_i hf2
      exact absurd (hf.symm.trans hf2) (fun h => Option.noConfusion h)
  · intro g2 pick2
    simp only [Game.tick]
    split
    · exact Nat.le_refl _
    · split
      · split
        · split
          · split
            · rw [(place_food_fields _ pick2).1]
              simp
            · show g2.snake.length ≤ (Game.place_food _ pick2).snake.length
              rw [(place_food_fields _ pick2).1]
              simp
          · show g2.snake.length ≤ ((g2.get_new_head :: g2.snake).dropLast).length
            simp [List.length_dropLast]
        · show g2.snake.length ≤ ((g2.get_new_head :: g2.snake).dropLast).length
          simp [List.length_dropLast]
      · simp

/-- Claim C6: `Game::create` with both dimensions at least 2 succeeds and
yields state `RUNNING`, pending direction `DOWN`, a single snake segment
at the origin, and food present and distinct from that segment; with a
dimension below 2 it fails fast (models the panic) and no game record is
produced. -/
theorem create_spec (height width pick : Nat) :
    (2 ≤ height → 2 ≤ width →
      ∃ g, Game.create height width pick = some g ∧ g.state = GameState.RUNNING ∧
        g.cur_input = Input.DOWN ∧ g.snake = [⟨0, 0⟩] ∧
        ∃ f, g.food = some f ∧ f ≠ ⟨0, 0⟩) ∧
    (height < 2 ∨ width < 2 → Game.create height width pick = none) := by
  constructor
  · intro hh hw
    have hdim : ¬ (height < 2 ∨ width < 2) := by omega
    refine ⟨(Game.initial height width).place_food pick, ?_, ?_, ?_, ?_, ?_⟩
    · unfold Game.create
      rw [if_neg hdim]
    · rw [(place_food_fields _ pick).2.2.2.1]
      rfl
    · rw [(place_food_fields _ pick).2.2.2.2]
      rfl
    · rw [(place_food_fields _ pick).1]
      rfl
    · rcases place_food_food (Game.initial height width) pick with
        ⟨hfree, _⟩ | ⟨f, hsome, hmem⟩
      · exfalso
        have h11 : (⟨1, 1⟩ : Coord) ∈ (Game.initial height width).free_coords := by
          rw [mem_free_coords]
          constructor
          · simp only [Game.initial, Game.coord_is_in_bounds, decide_eq_true_eq]
            omega
          · simp [Game.initial, Coord.mk.injEq]
        rw [hfree] at h11
        exact List.not_mem_nil _ h11
      · refine ⟨f, hsome, fun heq => ?_⟩
        have hns := ((mem_free_coords _ f).mp hmem).2
        exact hns (by rw [heq]; exact List.mem_singleton_self _)
  · intro h
    unfold Game.create
    rw [if_pos h]


/-- Claim C2, witness: `collision_demo`'s next head lands on its third
segment and the tick only flips the state to `DEAD`; `tail_demo` moves
onto its own tail and does not die. -/
theorem tick_self_collision_spec_witness :
    collision_demo.tick 0 = { collision_demo with state := GameState.DEAD } ∧
    (tail_demo.tick 0).state ≠ GameState.DEAD :=
  ⟨(tick_self_collision_spec collision_demo 0).1 (by decide),
   (tick_self_collision_spec tail_demo 0).2 (by decide) (by decide) (by decide)⟩

/-- Claim C4, witness: `eat_demo` eats its food and its snake grows by
one segment. -/
theorem tick_eat_grows_spec_witness :
    (eat_demo.tick 0).snake = eat_demo.get_new_head :: eat_demo.snake ∧
    eat_demo.snake.length ≤ (eat_demo.tick 0).snake.length :=
  ⟨((tick_eat_grows_spec eat_demo 0).1 ⟨0, 1⟩ (by decide) (by decide) (by decide)
      (by decide) (by decide)).1,
   (tick_eat_grows_spec eat_demo 0).2 eat_demo 0⟩

/-- Claim C5, witness: `oob_demo` walks off the top edge and its snake
retains the out-of-bounds head. -/
theorem tick_out_of_bounds_spec_witness :
    (oob_demo.tick 0).snake.length = oob_demo.snake.length + 1 :=
  (tick_out_of_bounds_spec oob_demo 0 (by decide) (by decide) (by decide)).2

/-- Claim C6, witness: creation succeeds on a 2x2 board and fails on a
board of height 1. -/
theorem create_spec_witness :
    (∃ g, Game.create 2 2 0 = some g ∧ g.state = GameState.RUNNING ∧
      g.cur_input = Input.DOWN ∧ g.snake = [⟨0, 0⟩] ∧
      ∃ f, g.food = some f ∧ f ≠ ⟨0, 0⟩) ∧ Game.create 1 5 0 = none :=
  ⟨(create_spec 2 2 0).1 (by omega) (by omega), (create_spec 1 5 0).2 (by omega)⟩

/-- Claim C3: in every state reachable from `Game::create` by ticks and
pending-direction updates (over every random placement outcome), food,
when present, differs from every snake segment, and food is absent only
when the snake occupies every board cell. -/
theorem reachable_food_disjoint (g : Game) (h : Reachable g) :
    (∀ f, g.food = some f → f ∉ g.snake) ∧
    (g.food = none → ∀ c, g.coord_is_in_bounds c = true → c ∈ g.snake) := by
  obtain ⟨-, hfo⟩ := reachable_inv g h
  exact ⟨fun f hf => (hfo.1 f hf).1, hfo.2⟩

/-- Claim C3, witness: the invariant holds at the concrete reachable
state `Game.create 2 2 0`. -/
theorem reachable_food_disjoint_witness :
    (∀ f, created_demo.food = some f → f ∉ created_demo.snake) ∧
    (created_demo.food = none →
      ∀ c, created_demo.coord_is_in_bounds c = true → c ∈ created_demo.snake) :=
  reachable_food_disjoint created_demo (Reachable.create 2 2 0 created_demo (by decide))

end Snake
